import Mathlib

/-!
Shallow embedding of the `text_games` repository: the adventure game's
`RandomItemSelector`, `Castle`/`Game` replay step and `RedWizard` spell duel
from `adv_game.py`, and the RPSLS `determine_winner` from `rpsls.py`.

Randomness is modelled by an explicit parameter `r : Nat`: the Python call
`random.choice(lst)` is embedded as `lst.getD (r % lst.length) d`, so every
behaviour of the uniform random source corresponds to some `r` and vice versa.
Console input/output is irrelevant to the properties below and is dropped;
user answers are passed as explicit `String` arguments (processed on their
character lists, so that everything evaluates structurally), and the
spell-duel input loop receives the already-parsed numeric entries as explicit
data.
-/

namespace TextGames

/-- Embedding of the `encounter_outcome` enum (aliased as `EncounterOutcome`). -/
inductive EncounterOutcome where
  | CONTINUE
  | END
deriving DecidableEq

/-- Embedding of the `RandomItemSelector` state: the pool `items` and the
`used_items` list, exactly the two attributes of the Python class. -/
structure RandomItemSelector (α : Type) where
  items : List α
  used_items : List α
deriving DecidableEq

namespace RandomItemSelector

variable {α : Type} [DecidableEq α]

/-- Embedding of `RandomItemSelector.__init__(items)`: copies the pool and
starts with an empty `used_items` list. -/
def mkSelector (items : List α) : RandomItemSelector α :=
  ⟨items, []⟩

/-- Embedding of `add_item`: appends to the pool unconditionally. -/
def add_item (s : RandomItemSelector α) (x : α) : RandomItemSelector α :=
  ⟨s.items ++ [x], s.used_items⟩

/-- Embedding of `reset`: clears `used_items`, leaves `items` alone. -/
def reset (s : RandomItemSelector α) : RandomItemSelector α :=
  ⟨s.items, []⟩

/-- The Python set comprehension
`{self.items.index(x) for x in self.used_items if x in self.items}`:
first-occurrence indices of the used values that occur in the pool
(membership below only ever tests `i ∈ usedIndexList s`, so the
list-versus-set distinction is immaterial). -/
def usedIndexList (s : RandomItemSelector α) : List Nat :=
  (s.used_items.filter (fun x => x ∈ s.items)).map (fun x => s.items.indexOf x)

/-- The Python list comprehension
`[i for i in range(len(self.items)) if i not in {...}]`. -/
def availableIndices (s : RandomItemSelector α) : List Nat :=
  (List.range s.items.length).filter (fun i => i ∉ usedIndexList s)

/-- The index drawn by `random.choice(available_indices)` in the branch where
`available_indices` was recomputed as `list(range(len(self.items)))` after the
mid-draw reset, for the random parameter `r`. -/
def resetDrawIdx (s : RandomItemSelector α) (r : Nat) : Nat :=
  (List.range s.items.length).getD (r % (List.range s.items.length).length) 0

/-- The value `self.items[choice_idx]` drawn in the mid-draw-reset branch. -/
def resetDrawValue [Inhabited α] (s : RandomItemSelector α) (r : Nat) : α :=
  s.items.getD (resetDrawIdx s r) default

/-- The index drawn by `random.choice(available_indices)` in the ordinary
branch where `available_indices` was non-empty, for the random parameter `r`. -/
def availDrawIdx (s : RandomItemSelector α) (r : Nat) : Nat :=
  (availableIndices s).getD (r % (availableIndices s).length) 0

/-- The value `self.items[choice_idx]` drawn in the ordinary branch. -/
def availDrawValue [Inhabited α] (s : RandomItemSelector α) (r : Nat) : α :=
  s.items.getD (availDrawIdx s r) default

/-- Embedding of `pull_random_item`, with the random draw
`random.choice(available_indices)` resolved by the parameter `r` as
`available_indices[r % len(available_indices)]`.  Returns the drawn value
(`none` on an empty pool) together with the updated selector state: the empty
pool clears `used_items` and yields `none`; an exhausted pool (empty
`available_indices`) is reset mid-draw, after which the chosen value is the
sole used item; otherwise the chosen value is appended to `used_items`. -/
def pull_random_item [Inhabited α] (s : RandomItemSelector α) (r : Nat) :
    Option α × RandomItemSelector α :=
  if s.items.isEmpty then
    (none, ⟨s.items, []⟩)
  else if (availableIndices s).isEmpty then
    (some (resetDrawValue s r), ⟨s.items, [resetDrawValue s r]⟩)
  else
    (some (availDrawValue s r), ⟨s.items, s.used_items ++ [availDrawValue s r]⟩)

/-- Runs `pull_random_item` once per entry of `rs`, collecting the outputs in
order together with the final state. -/
def pullSeq [Inhabited α] (s : RandomItemSelector α) :
    List Nat → List (Option α) × RandomItemSelector α
  | [] => ([], s)
  | r :: rs =>
    let p := pull_random_item s r
    let q := pullSeq p.2 rs
    (p.1 :: q.1, q.2)

/-- States reachable from some initial pool by the three public operations. -/
inductive Reach [Inhabited α] : RandomItemSelector α → Prop where
  | init (items : List α) : Reach (mkSelector items)
  | add {s : RandomItemSelector α} (x : α) : Reach s → Reach (add_item s x)
  | pull {s : RandomItemSelector α} (r : Nat) : Reach s → Reach (pull_random_item s r).2
  | reset {s : RandomItemSelector α} : Reach s → Reach (RandomItemSelector.reset s)

/-- The selector state after three draws from the duplicate pool `[0, 0, 1]`
with the random source picking the second available position, then twice the
last available position. -/
def dupState : RandomItemSelector Nat :=
  (pull_random_item
    (pull_random_item (pull_random_item (mkSelector [0, 0, 1]) 1).2 0).2 0).2

end RandomItemSelector

/-- Python's `str.strip()` on a character list: drop leading and trailing
whitespace. -/
def pyStrip (cs : List Char) : List Char :=
  ((cs.dropWhile Char.isWhitespace).reverse.dropWhile Char.isWhitespace).reverse

/-- Python's `str.lower()` on a character list. -/
def pyLower (cs : List Char) : List Char :=
  cs.map Char.toLower

/-- The replay test `input(...).strip().lower().startswith("y")` applied to
the player's answer in `Game.play_game`, computed on the answer's character
list. -/
def wantsReplay (ans : String) : Bool :=
  ['y'].isPrefixOf (pyLower (pyStrip ans.data))

/-- Embedding of the `Castle` state: its `room_selector` attribute.  The room
type is kept abstract; the prebuilt `castle_rooms` list is flavour data the
claims do not depend on. -/
structure Castle (α : Type) where
  room_selector : RandomItemSelector α

/-- Embedding of `Castle.__init__(rooms)`: a fresh selector over `rooms`. -/
def Castle.create {α : Type} (rooms : List α) : Castle α :=
  ⟨RandomItemSelector.mkSelector rooms⟩

/-- Embedding of `Castle.reset`: resets the room selector. -/
def Castle.reset {α : Type} (c : Castle α) : Castle α :=
  ⟨RandomItemSelector.reset c.room_selector⟩

/-- One iteration tail of the `Game.play_game` loop, after `next_room`
produced `outcome`, given the replay answer `ans` the player would type at the
end-of-game prompt: yields whether the loop keeps running together with the
castle state it continues with.  On `END` the code calls `self.castle.reset()`
and then prompts; an answer accepted by `wantsReplay` re-enters the loop,
any other answer breaks out.  On `CONTINUE` the loop just repeats. -/
def play_game_step {α : Type} (c : Castle α) (outcome : EncounterOutcome)
    (ans : String) : Bool × Castle α :=
  match outcome with
  | .END => (wantsReplay ans, Castle.reset c)
  | .CONTINUE => (true, c)

namespace RedWizard

/-- Embedding of the `RedWizard.game_rules` dict: each spell maps to the list
of spells it beats. -/
def game_rules : List (String × List String) :=
  [("Fireball", ["Ice Shard", "Lightning Bolt"]),
   ("Ice Shard", ["Wind Gust", "Earthquake"]),
   ("Wind Gust", ["Lightning Bolt", "Fireball"]),
   ("Lightning Bolt", ["Earthquake", "Ice Shard"]),
   ("Earthquake", ["Fireball", "Wind Gust"])]

/-- `choices = list(game_rules.keys())` (Python dicts preserve insertion
order). -/
def choices : List String :=
  game_rules.map (fun p => p.1)

/-- The dict access `self.game_rules[player]`; the lookup always succeeds for
the spells actually played, which come from `choices`. -/
def beats (p : String) : List String :=
  (game_rules.lookup p).getD []

/-- Embedding of the `RedWizard.run_encounter` loop.  Each list entry is one
loop iteration's data: the player's already-parsed 0-based selection
(`int(choice) - 1`; an out-of-range value is the invalid-selection path and
re-prompts) and the random parameter for the wizard's uniform draw from
`choices`.  `none` means the supplied iterations ran out with the duel still
undecided (the loop would keep prompting). -/
def run_encounter : List (Nat × Nat) → Option EncounterOutcome
  | [] => none
  | (pidx, widx) :: rest =>
    if pidx < choices.length then
      let player := choices.getD pidx ""
      let wizard := choices.getD (widx % choices.length) ""
      if player = wizard then run_encounter rest
      else if wizard ∈ beats player then some EncounterOutcome.CONTINUE
      else some EncounterOutcome.END
    else run_encounter rest

end RedWizard

namespace Rpsls

/-- Embedding of the `RULES` dict from `rpsls.py`: `(winner, loser)` pairs
mapped to the reason text. -/
def RULES : List ((String × String) × String) :=
  [(("scissors", "lizard"), "Scissors decapitate lizard"),
   (("scissors", "paper"), "Scissors cuts paper"),
   (("paper", "rock"), "Paper covers rock"),
   (("rock", "lizard"), "Rock crushes lizard"),
   (("lizard", "spock"), "Lizard poisons Spock"),
   (("spock", "scissors"), "Spock smashes scissors"),
   (("lizard", "paper"), "Lizard eats paper"),
   (("paper", "spock"), "Paper disproves Spock"),
   (("spock", "rock"), "Spock vaporizes rock"),
   (("rock", "scissors"), "Rock crushes scissors")]

/-- Embedding of the `CHOICES` list. -/
def CHOICES : List String :=
  ["rock", "paper", "scissors", "lizard", "spock"]

/-- Embedding of `determine_winner(user, computer)`: the Python dict
membership test plus access `RULES[(a, b)]` is the association-list lookup. -/
def determine_winner (user computer : String) : String × String :=
  if user = computer then ("tie", "It's a tie!")
  else
    match RULES.lookup (user, computer) with
    | some reason => ("win", reason)
    | none =>
      match RULES.lookup (computer, user) with
      | some reason => ("lose", reason)
      | none => ("error", "Unexpected result.")

end Rpsls

namespace RandomItemSelector

variable {α : Type} [DecidableEq α]

example : (pullSeq (mkSelector ([0, 0, 1] : List Nat)) [1, 0, 0]).1
    = [some 0, some 0, some 0] := by decide

example : (pullSeq (mkSelector ([10, 20] : List Nat)) [0, 0, 0]).1
    = [some 10, some 20, some 10] := by decide

lemma mem_availableIndices {s : RandomItemSelector α} {i : Nat} :
    i ∈ availableIndices s ↔ i < s.items.length ∧ i ∉ usedIndexList s := by
  simp [availableIndices, List.mem_filter, List.mem_range]

lemma mem_usedIndexList {s : RandomItemSelector α} {i : Nat} :
    i ∈ usedIndexList s ↔ ∃ x, x ∈ s.used_items ∧ x ∈ s.items ∧ s.items.indexOf x = i := by
  simp [usedIndexList, List.mem_map, List.mem_filter, and_assoc]

lemma getD_mem_of_lt {β : Type} (l : List β) (i : Nat) (d : β) (h : i < l.length) :
    l.getD i d ∈ l := by
  rw [List.getD_eq_getElem l d h]
  exact List.getElem_mem h

lemma getD_mod_mem {β : Type} (l : List β) (r : Nat) (d : β) (h : l ≠ []) :
    l.getD (r % l.length) d ∈ l :=
  getD_mem_of_lt l _ d (Nat.mod_lt _ (List.length_pos.mpr h))

lemma pull_eq_of_empty [Inhabited α] (s : RandomItemSelector α) (r : Nat)
    (h : s.items = []) :
    pull_random_item s r = (none, ⟨s.items, []⟩) := by
  rw [pull_random_item, if_pos (by simp [h])]

lemma pull_eq_of_exhausted [Inhabited α] (s : RandomItemSelector α) (r : Nat)
    (h1 : s.items ≠ []) (h2 : availableIndices s = []) :
    pull_random_item s r
      = (some (resetDrawValue s r), ⟨s.items, [resetDrawValue s r]⟩) := by
  rw [pull_random_item, if_neg (by simp [h1]), if_pos (by simp [h2])]

lemma pull_eq_of_avail [Inhabited α] (s : RandomItemSelector α) (r : Nat)
    (h1 : s.items ≠ []) (h2 : availableIndices s ≠ []) :
    pull_random_item s r
      = (some (availDrawValue s r),
          ⟨s.items, s.used_items ++ [availDrawValue s r]⟩) := by
  rw [pull_random_item, if_neg (by simp [h1]), if_neg (by simp [h2])]

omit [DecidableEq α] in
lemma resetDrawIdx_lt (s : RandomItemSelector α) (r : Nat) (h : s.items ≠ []) :
    resetDrawIdx s r < s.items.length := by
  have hrange : List.range s.items.length ≠ [] := by
    simp [List.range_eq_nil, List.length_eq_zero, h]
  have := getD_mod_mem (List.range s.items.length) r 0 hrange
  rw [List.mem_range] at this
  exact this

omit [DecidableEq α] in
lemma resetDrawValue_mem [Inhabited α] (s : RandomItemSelector α) (r : Nat)
    (h : s.items ≠ []) : resetDrawValue s r ∈ s.items :=
  getD_mem_of_lt _ _ _ (resetDrawIdx_lt s r h)

lemma availDrawIdx_mem (s : RandomItemSelector α) (r : Nat)
    (h2 : availableIndices s ≠ []) : availDrawIdx s r ∈ availableIndices s :=
  getD_mod_mem _ r 0 h2

lemma availDrawValue_mem [Inhabited α] (s : RandomItemSelector α) (r : Nat)
    (h2 : availableIndices s ≠ []) : availDrawValue s r ∈ s.items :=
  getD_mem_of_lt _ _ _ (mem_availableIndices.mp (availDrawIdx_mem s r h2)).1

/-- On a non-empty pool, `pull_random_item` gives back `some` element of the
pool: the available-index list handed to the random choice is never empty. -/
lemma pull_fst_mem [Inhabited α] (s : RandomItemSelector α) (r : Nat)
    (h : s.items ≠ []) :
    (pull_random_item s r).1 ∈ s.items.map some := by
  by_cases h2 : availableIndices s = []
  · rw [pull_eq_of_exhausted s r h h2]
    exact List.mem_map_of_mem some (resetDrawValue_mem s r h)
  · rw [pull_eq_of_avail s r h h2]
    exact List.mem_map_of_mem some (availDrawValue_mem s r h2)

/-- Whatever the starting state, `pull_random_item` never removes pool items
and only ever appends pool elements to `used_items`. -/
lemma pull_used_subset [Inhabited α] (s : RandomItemSelector α) (r : Nat)
    (ih : ∀ x ∈ s.used_items, x ∈ s.items) :
    ∀ x ∈ (pull_random_item s r).2.used_items, x ∈ (pull_random_item s r).2.items := by
  by_cases h : s.items = []
  · rw [pull_eq_of_empty s r h]
    intro x hx
    simp at hx
  · by_cases h2 : availableIndices s = []
    · rw [pull_eq_of_exhausted s r h h2]
      intro x hx
      rw [List.mem_singleton] at hx
      subst hx
      exact resetDrawValue_mem s r h
    · rw [pull_eq_of_avail s r h h2]
      intro x hx
      rw [List.mem_append, List.mem_singleton] at hx
      rcases hx with hx | hx
      · exact ih x hx
      · subst hx
        exact availDrawValue_mem s r h2

lemma pull_snd_items [Inhabited α] (s : RandomItemSelector α) (r : Nat) :
    (pull_random_item s r).2.items = s.items := by
  by_cases h : s.items = []
  · rw [pull_eq_of_empty s r h]
  · by_cases h2 : availableIndices s = []
    · rw [pull_eq_of_exhausted s r h h2]
    · rw [pull_eq_of_avail s r h h2]

lemma nodup_indexOf_getElem (l : List α) (hnd : l.Nodup)
    (i : Nat) (hi : i < l.length) :
    l.indexOf l[i] = i := by
  have hmem : l[i] ∈ l := List.getElem_mem hi
  have hlt : l.indexOf l[i] < l.length := List.indexOf_lt_length.mpr hmem
  have heq : l[l.indexOf l[i]] = l[i] := List.getElem_indexOf hlt
  exact hnd.getElem_inj_iff.mp heq

/-- On a duplicate-free pool whose used list is a duplicate-free proper
subset, some pool index is still available. -/
lemma avail_ne_nil {s : RandomItemSelector α}
    (hnd : s.items.Nodup)
    (hlt : s.used_items.length < s.items.length) :
    availableIndices s ≠ [] := by
  have hex : ∃ x, x ∈ s.items ∧ x ∉ s.used_items := by
    by_contra hco
    push_neg at hco
    have hss : s.items ⊆ s.used_items := fun x hx => hco x hx
    have := (List.subperm_of_subset hnd hss).length_le
    omega
  obtain ⟨x, hxi, hxu⟩ := hex
  apply List.ne_nil_of_mem (a := s.items.indexOf x)
  rw [mem_availableIndices]
  refine ⟨List.indexOf_lt_length.mpr hxi, ?_⟩
  intro hmem
  rw [mem_usedIndexList] at hmem
  obtain ⟨y, hyu, hyi, hy⟩ := hmem
  have hyx : y = x := (List.indexOf_inj hyi hxi).mp hy
  subst hyx
  exact hxu hyu

/-- One draw on a duplicate-free pool with duplicate-free, non-exhausted used
list: the drawn value is a pool element that was not yet used, and it is
appended to the used list. -/
lemma pull_nodup_step [Inhabited α] (s : RandomItemSelector α) (r : Nat)
    (hnd : s.items.Nodup)
    (hlt : s.used_items.length < s.items.length) :
    pull_random_item s r
      = (some (availDrawValue s r),
          ⟨s.items, s.used_items ++ [availDrawValue s r]⟩)
    ∧ availDrawValue s r ∈ s.items
    ∧ availDrawValue s r ∉ s.used_items := by
  have hne : s.items ≠ [] := by
    intro hc
    rw [hc] at hlt
    simp at hlt
  have hav : availableIndices s ≠ [] := avail_ne_nil hnd hlt
  refine ⟨pull_eq_of_avail s r hne hav, availDrawValue_mem s r hav, ?_⟩
  intro hcu
  have hidx := availDrawIdx_mem s r hav
  rw [mem_availableIndices] at hidx
  obtain ⟨hlt2, hnotin⟩ := hidx
  apply hnotin
  rw [mem_usedIndexList]
  refine ⟨availDrawValue s r, hcu, availDrawValue_mem s r hav, ?_⟩
  have hval : availDrawValue s r = s.items[availDrawIdx s r] :=
    List.getD_eq_getElem _ _ hlt2
  rw [hval]
  exact nodup_indexOf_getElem s.items hnd _ hlt2

/-- Running a sequence of draws on a duplicate-free pool long enough to stay
within one exhaustion cycle: every draw succeeds, the drawn values extend the
used list, and the extended used list stays duplicate-free. -/
lemma pullSeq_nodup [Inhabited α] (rs : List Nat) (s : RandomItemSelector α)
    (hnd : s.items.Nodup) (hu : s.used_items.Nodup)
    (hsub : ∀ x ∈ s.used_items, x ∈ s.items)
    (hlen : s.used_items.length + rs.length ≤ s.items.length) :
    ∃ cs : List α,
      (pullSeq s rs).1 = cs.map some
      ∧ (pullSeq s rs).2 = ⟨s.items, s.used_items ++ cs⟩
      ∧ (s.used_items ++ cs).Nodup
      ∧ (∀ x ∈ cs, x ∈ s.items)
      ∧ cs.length = rs.length := by
  induction rs generalizing s with
  | nil =>
    refine ⟨[], rfl, ?_, by simpa using hu, by simp, rfl⟩
    cases s
    simp [pullSeq]
  | cons r rs ih =>
    have hlt : s.used_items.length < s.items.length := by
      simp only [List.length_cons] at hlen
      omega
    obtain ⟨heq, hci, hcu⟩ := pull_nodup_step s r hnd hlt
    set c := availDrawValue s r with hc
    have hu1 : (s.used_items ++ [c]).Nodup := by
      rw [List.nodup_append]
      refine ⟨hu, List.nodup_singleton c, ?_⟩
      intro a ha hb
      rw [List.mem_singleton] at hb
      subst hb
      exact hcu ha
    have hsub1 : ∀ x ∈ s.used_items ++ [c], x ∈ s.items := by
      intro x hx
      rw [List.mem_append, List.mem_singleton] at hx
      rcases hx with hx | hx
      · exact hsub x hx
      · subst hx
        exact hci
    have hlen1 : (s.used_items ++ [c]).length + rs.length ≤ s.items.length := by
      rw [List.length_append]
      simp only [List.length_cons] at hlen
      simp
      omega
    obtain ⟨cs, ho, hf, hn, hm, hl⟩ :=
      ih (⟨s.items, s.used_items ++ [c]⟩ : RandomItemSelector α) hnd hu1 hsub1 hlen1
    refine ⟨c :: cs, ?_, ?_, ?_, ?_, ?_⟩
    · rw [pullSeq]
      simp only [heq, ho, List.map_cons]
    · rw [pullSeq]
      simp only [heq, hf]
      simp
    · simpa [List.append_assoc] using hn
    · intro x hx
      rw [List.mem_cons] at hx
      rcases hx with hx | hx
      · subst hx
        exact hci
      · exact hm x hx
    · simp [hl]

omit [DecidableEq α] in
lemma filterMap_id_map_some (l : List α) : (l.map some).filterMap id = l := by
  induction l with
  | nil => rfl
  | cons a l ih => simp [List.filterMap_cons, ih]

/-- Pulling forever from the empty-pool empty-used state stays there and only
ever outputs `none`. -/
lemma pullSeq_empty_state [Inhabited α] (rs : List Nat) :
    pullSeq (⟨[], []⟩ : RandomItemSelector α) rs
      = (List.replicate rs.length none, ⟨[], []⟩) := by
  induction rs with
  | nil => rfl
  | cons r rs ih =>
    have h1 : pull_random_item (⟨[], []⟩ : RandomItemSelector α) r
        = (none, ⟨[], []⟩) := pull_eq_of_empty _ r rfl
    rw [pullSeq]
    simp [h1, ih, List.replicate_succ]

end RandomItemSelector

lemma dropWhile_append_last {c : Char} (l : List Char)
    (hc : Char.isWhitespace c = false) :
    (l ++ [c]).dropWhile Char.isWhitespace
      = l.dropWhile Char.isWhitespace ++ [c] := by
  rw [List.dropWhile_append]
  split
  · rename_i h
    have hnil : l.dropWhile Char.isWhitespace = [] := by simpa using h
    rw [hnil]
    simp [List.dropWhile_cons, hc]
  · rfl

lemma pyStrip_cons_head {c : Char} (cs : List Char)
    (hc : Char.isWhitespace c = false) :
    ∃ t, pyStrip (c :: cs) = c :: t := by
  unfold pyStrip
  rw [List.dropWhile_cons, if_neg (by simp [hc]), List.reverse_cons,
    dropWhile_append_last cs.reverse hc, List.reverse_append]
  exact ⟨_, rfl⟩

lemma toLower_not_whitespace {c : Char} (h : c.toLower = 'y') :
    Char.isWhitespace c = false := by
  by_contra hws
  rw [Bool.not_eq_false] at hws
  simp only [Char.isWhitespace, Bool.or_eq_true, decide_eq_true_eq] at hws
  rcases hws with ((rfl | rfl) | rfl) | rfl <;> exact absurd h (by decide)

/-- An answer whose lowercased raw form starts with `y` is accepted by the
replay test: stripping whitespace cannot remove a leading `y` or `Y`. -/
lemma wantsReplay_of_ci_prefix (ans : String)
    (h : ['y'].isPrefixOf (pyLower ans.data) = true) :
    wantsReplay ans = true := by
  cases hd : ans.data with
  | nil =>
    rw [hd] at h
    simp [pyLower, List.isPrefixOf] at h
  | cons c cs =>
    rw [hd] at h
    have hy : c.toLower = 'y' := by
      simp only [pyLower, List.map_cons, List.isPrefixOf, Bool.and_eq_true,
        beq_iff_eq] at h
      exact h.1.symm
    obtain ⟨t, ht⟩ := pyStrip_cons_head cs (toLower_not_whitespace hy)
    unfold wantsReplay
    rw [hd, ht]
    simp [pyLower, List.isPrefixOf, hy]

namespace Claims

open RandomItemSelector

/-- C1: evaluating `pull_random_item` three times on the duplicate pool
`[A, A, B]` embedded as `[0, 0, 1]`, with the random source always picking the
last entry of the available-index list: all three draws return `A` and `B` is
never drawn, because used-tracking goes through the first-occurrence value
search `self.items.index(x)`, which never marks the second `A` position used.
The multiset of the three draws is therefore not `{A, A, B}`. -/
theorem duplicate_pool_draws_eval :
    (pullSeq (mkSelector ([0, 0, 1] : List Nat)) [1, 0, 0]).1
      = [some 0, some 0, some 0]
    ∧ ((pullSeq (mkSelector ([0, 0, 1] : List Nat)) [1, 0, 0]).1.filterMap id).count 1
      = 0 := by
  decide

/-- C2 is false as stated: `dupState` is reachable (three `pull_random_item`
calls from the pool `[0, 0, 1]`), yet the value `0` occurs three times in its
`used_items` and only twice in its `items`, so `used_items` is not a
sub-multiset of `items`. -/
theorem used_submultiset_counterexample :
    Reach dupState
    ∧ dupState.used_items.count 0 = 3
    ∧ dupState.items.count 0 = 2 :=
  ⟨Reach.pull 0 (Reach.pull 0 (Reach.pull 1 (Reach.init [0, 0, 1]))),
    by decide, by decide⟩

/-- C2 (amended): for every state reachable by any sequence of `add_item`,
`pull_random_item` and `reset` from any initial pool, every value occurring in
`used_items` also occurs in `items` (set containment; the sub-multiset bound
fails on pools with duplicate values, see the counterexample). -/
theorem reach_used_subset_items {α : Type} [DecidableEq α] [Inhabited α]
    {s : RandomItemSelector α} (h : Reach s) :
    ∀ x ∈ s.used_items, x ∈ s.items := by
  induction h with
  | init items =>
    intro x hx
    simp [mkSelector] at hx
  | add y _ ih =>
    intro x hx
    simp only [add_item] at hx ⊢
    exact List.mem_append_left _ (ih x hx)
  | pull r _ ih =>
    exact pull_used_subset _ r ih
  | reset _ _ =>
    intro x hx
    simp [RandomItemSelector.reset] at hx

/-- Witness for C2 (amended) at a concrete reachable state with one draw. -/
theorem reach_used_subset_items_witness :
    5 ∈ ((pull_random_item (mkSelector ([5, 6] : List Nat)) 0).2).items :=
  reach_used_subset_items (Reach.pull 0 (Reach.init [5, 6])) 5 (by decide)

/-- C6 is false as stated: the answer `" y"` does not have the
case-insensitive prefix `"y"` (its first character is a space), yet after an
`END` outcome the game loop resumes on it, because the code strips whitespace
before testing the prefix. -/
theorem replay_prefix_counterexample :
    (play_game_step (Castle.create ([0] : List Nat)) EncounterOutcome.END " y").1
      = true
    ∧ (['y'].isPrefixOf (pyLower " y".data)) = false := by
  exact ⟨by decide, by decide⟩

/-- C6 (amended): after a room visit yields `END`, the loop's castle is the
reset castle, whose state is exactly that of a freshly created `Castle` over
the same rooms, with an empty used set; the loop resumes exactly when the
whitespace-stripped, lowercased answer starts with `"y"` — in particular on
every answer whose case-insensitive prefix is `"y"` — and terminates on every
other answer. -/
theorem replay_step_behavior {α : Type} (c : Castle α) (ans : String) :
    play_game_step c EncounterOutcome.END ans
      = (wantsReplay ans, Castle.create c.room_selector.items)
    ∧ (Castle.create c.room_selector.items).room_selector.used_items = []
    ∧ (['y'].isPrefixOf (pyLower ans.data) = true
        → (play_game_step c EncounterOutcome.END ans).1 = true) :=
  ⟨rfl, rfl, fun h => wantsReplay_of_ci_prefix ans h⟩

/-- Witness for C6 (amended): the answer `"Yes"` resumes the loop. -/
theorem replay_step_behavior_witness :
    (play_game_step (Castle.create ([0] : List Nat)) EncounterOutcome.END "Yes").1
      = true :=
  (replay_step_behavior (Castle.create [0]) "Yes").2.2 (by decide)

/-- C7: a `RandomItemSelector` with an empty pool answers `none` on every one
of any positive number of `pull_random_item` calls (the embedding is a total
function, so no exception is possible), and every call leaves `used_items`
empty (the pool stays empty as well). -/
theorem empty_pool_pulls {α : Type} [DecidableEq α] [Inhabited α]
    (s : RandomItemSelector α) (r : Nat) (rs : List Nat) (h : s.items = []) :
    (pullSeq s (r :: rs)).1 = List.replicate (rs.length + 1) none
    ∧ (pullSeq s (r :: rs)).2 = ⟨[], []⟩ := by
  have h1 : pull_random_item s r = (none, ⟨[], []⟩) := by
    rw [pull_eq_of_empty s r h, h]
  rw [pullSeq]
  simp [h1, pullSeq_empty_state, List.replicate_succ]

/-- Witness for C7 at the concrete empty selector and two calls. -/
theorem empty_pool_pulls_witness :
    (mkSelector ([] : List Nat)).items = []
    ∧ ((pullSeq (mkSelector ([] : List Nat)) [0, 1]).1 = List.replicate 2 none
      ∧ (pullSeq (mkSelector ([] : List Nat)) [0, 1]).2 = ⟨[], []⟩) :=
  ⟨rfl, empty_pool_pulls (mkSelector []) 0 [1] rfl⟩

/-- C8: `reset` on a selector with no prior draws (empty `used_items`) is the
identity on the state, `reset` is idempotent, and `reset` never changes the
pool `items`. -/
theorem reset_idempotent_pure {α : Type} (s t : RandomItemSelector α)
    (h : s.used_items = []) :
    RandomItemSelector.reset s = s
    ∧ RandomItemSelector.reset (RandomItemSelector.reset t) = RandomItemSelector.reset t
    ∧ (RandomItemSelector.reset t).items = t.items := by
  refine ⟨?_, rfl, rfl⟩
  cases s with
  | mk i u =>
    cases h
    rfl

/-- Witness for C8 at concrete selectors. -/
theorem reset_idempotent_pure_witness :
    (mkSelector ([3] : List Nat)).used_items = []
    ∧ (RandomItemSelector.reset (mkSelector ([3] : List Nat)) = mkSelector [3]
      ∧ RandomItemSelector.reset (RandomItemSelector.reset (⟨[3], [3]⟩ : RandomItemSelector Nat))
          = RandomItemSelector.reset ⟨[3], [3]⟩
      ∧ (RandomItemSelector.reset (⟨[3], [3]⟩ : RandomItemSelector Nat)).items
          = (⟨[3], [3]⟩ : RandomItemSelector Nat).items) :=
  ⟨rfl, reset_idempotent_pure (mkSelector [3]) ⟨[3], [3]⟩ rfl⟩

/-- C9: on a non-empty pool `pull_random_item` never answers `none`: its
output is `some` element of the pool (so the list of available indices handed
to the random choice was non-empty, clearing `used_items` first when the pool
was exhausted). -/
theorem nonempty_pull_some_mem {α : Type} [DecidableEq α] [Inhabited α]
    (s : RandomItemSelector α) (r : Nat) (h : s.items ≠ []) :
    (pull_random_item s r).1 ∈ s.items.map some :=
  pull_fst_mem s r h

/-- Witness for C9 at a concrete selector with the whole pool already used. -/
theorem nonempty_pull_some_mem_witness :
    (⟨[7], [7]⟩ : RandomItemSelector Nat).items ≠ []
    ∧ (pull_random_item (⟨[7], [7]⟩ : RandomItemSelector Nat) 0).1
        ∈ (⟨[7], [7]⟩ : RandomItemSelector Nat).items.map some :=
  ⟨by decide, nonempty_pull_some_mem ⟨[7], [7]⟩ 0 (by decide)⟩

/-- C3: on a pool of pairwise-distinct items and for every random source,
a number of consecutive draws equal to the pool size returns each item exactly
once (the collected outputs are a permutation of the pool, in particular with
no repeats and no `none`), and the next draw after that — the pool now being
exhausted, `used_items` is cleared within that same call before drawing from
the whole pool again — returns one of the already-returned values. -/
theorem no_repeat_until_exhaustion {α : Type} [DecidableEq α] [Inhabited α]
    (items : List α) (rs : List Nat) (r : Nat)
    (hnd : items.Nodup) (hlen : rs.length = items.length) (hne : items ≠ []) :
    ((pullSeq (mkSelector items) rs).1.filterMap id).Perm items
    ∧ (pull_random_item (pullSeq (mkSelector items) rs).2 r).1
        ∈ (pullSeq (mkSelector items) rs).1 := by
  obtain ⟨cs, ho, hf, hn, hm, hl⟩ :=
    pullSeq_nodup rs (mkSelector items) (by simpa [mkSelector] using hnd)
      (by simp [mkSelector]) (by simp [mkSelector])
      (by simp [mkSelector]; omega)
  have hcsnd : cs.Nodup := by simpa [mkSelector] using hn
  have hcssub : cs ⊆ items := fun x hx => hm x hx
  have hperm : cs.Perm items := by
    apply (List.subperm_of_subset hcsnd hcssub).perm_of_length_le
    rw [hl, hlen]
  constructor
  · rw [ho, filterMap_id_map_some]
    exact hperm
  · have hfi : (pullSeq (mkSelector items) rs).2.items = items := by
      rw [hf]
      rfl
    have hmm := pull_fst_mem (pullSeq (mkSelector items) rs).2 r
      (by rw [hfi]; exact hne)
    rw [hfi] at hmm
    rw [ho]
    exact ((hperm.symm.map some).mem_iff).mp hmm

/-- Witness for C3 at the concrete pool `[0, 1, 2]` and three draws. -/
theorem no_repeat_until_exhaustion_witness :
    (([0, 1, 2] : List Nat).Nodup
      ∧ ([2, 0, 0] : List Nat).length = ([0, 1, 2] : List Nat).length
      ∧ ([0, 1, 2] : List Nat) ≠ [])
    ∧ (((pullSeq (mkSelector ([0, 1, 2] : List Nat)) [2, 0, 0]).1.filterMap id).Perm
          [0, 1, 2]
      ∧ (pull_random_item (pullSeq (mkSelector ([0, 1, 2] : List Nat)) [2, 0, 0]).2 5).1
          ∈ (pullSeq (mkSelector ([0, 1, 2] : List Nat)) [2, 0, 0]).1) :=
  ⟨⟨by decide, by decide, by decide⟩,
    no_repeat_until_exhaustion [0, 1, 2] [2, 0, 0] 5 (by decide) (by decide) (by decide)⟩

/-- C4: for each of the 20 ordered pairs of distinct RPSLS choices,
`determine_winner` returns `win` or `lose` (the `error`/`Unexpected result.`
fallback is never taken), swapping the arguments flips `win` and `lose`, and
the reason text of the two directions coincides. -/
theorem determine_winner_total_antisym (x y : String)
    (hx : x ∈ Rpsls.CHOICES) (hy : y ∈ Rpsls.CHOICES) (hxy : x ≠ y) :
    ((Rpsls.determine_winner x y).1 = "win" ∨ (Rpsls.determine_winner x y).1 = "lose")
    ∧ ((Rpsls.determine_winner x y).1 = "win"
        ↔ (Rpsls.determine_winner y x).1 = "lose")
    ∧ (Rpsls.determine_winner x y).2 = (Rpsls.determine_winner y x).2 := by
  simp only [Rpsls.CHOICES, List.mem_cons, List.not_mem_nil, or_false] at hx hy
  rcases hx with rfl | rfl | rfl | rfl | rfl <;>
    rcases hy with rfl | rfl | rfl | rfl | rfl <;>
      first
        | exact absurd rfl hxy
        | decide

/-- Witness for C4 at the concrete pair rock versus scissors. -/
theorem determine_winner_total_antisym_witness :
    ("rock" ∈ Rpsls.CHOICES ∧ "scissors" ∈ Rpsls.CHOICES ∧ "rock" ≠ "scissors")
    ∧ (((Rpsls.determine_winner "rock" "scissors").1 = "win"
          ∨ (Rpsls.determine_winner "rock" "scissors").1 = "lose")
      ∧ ((Rpsls.determine_winner "rock" "scissors").1 = "win"
          ↔ (Rpsls.determine_winner "scissors" "rock").1 = "lose")
      ∧ (Rpsls.determine_winner "rock" "scissors").2
          = (Rpsls.determine_winner "scissors" "rock").2) :=
  ⟨⟨by decide, by decide, by decide⟩,
    determine_winner_total_antisym "rock" "scissors" (by decide) (by decide) (by decide)⟩

/-- C5: one round of the Red Wizard duel with a valid player selection `p` and
wizard draw `w`: equal spells announce a clash and re-prompt (the round yields
no outcome, the loop goes on with the remaining rounds); with distinct spells
the encounter returns `CONTINUE` exactly when the wizard's spell is in the
player's beats list, and `END` when it is not. -/
theorem spell_duel_round (p w : Nat) (rest : List (Nat × Nat))
    (hp : p < 5) (hw : w < 5) :
    (RedWizard.choices.getD p "" = RedWizard.choices.getD w ""
        → RedWizard.run_encounter ((p, w) :: rest) = RedWizard.run_encounter rest)
    ∧ (RedWizard.choices.getD p "" ≠ RedWizard.choices.getD w ""
        → RedWizard.choices.getD w "" ∈ RedWizard.beats (RedWizard.choices.getD p "")
        → RedWizard.run_encounter ((p, w) :: rest) = some EncounterOutcome.CONTINUE)
    ∧ (RedWizard.choices.getD p "" ≠ RedWizard.choices.getD w ""
        → RedWizard.choices.getD w "" ∉ RedWizard.beats (RedWizard.choices.getD p "")
        → RedWizard.run_encounter ((p, w) :: rest) = some EncounterOutcome.END) := by
  have hlen : RedWizard.choices.length = 5 := by decide
  have hphl : p < RedWizard.choices.length := by omega
  have hwmod : w % RedWizard.choices.length = w := by
    rw [hlen]
    exact Nat.mod_eq_of_lt hw
  refine ⟨?_, ?_, ?_⟩
  · intro heq
    simp only [RedWizard.run_encounter, if_pos hphl, hwmod, if_pos heq]
  · intro hne hbeat
    simp only [RedWizard.run_encounter, if_pos hphl, hwmod, if_neg hne, if_pos hbeat]
  · intro hne hbeat
    simp only [RedWizard.run_encounter, if_pos hphl, hwmod, if_neg hne, if_neg hbeat]

/-- Witness for C5: Fireball against Ice Shard wins the duel. -/
theorem spell_duel_round_witness :
    ((0 : Nat) < 5 ∧ (1 : Nat) < 5)
    ∧ RedWizard.choices.getD 0 "" ≠ RedWizard.choices.getD 1 ""
    ∧ RedWizard.run_encounter [(0, 1)] = some EncounterOutcome.CONTINUE :=
  ⟨⟨by decide, by decide⟩, by decide,
    (spell_duel_round 0 1 [] (by decide) (by decide)).2.1 (by decide) (by decide)⟩

/-- C10: the Red Wizard rule table is a complete asymmetric tournament over
the 5 spells: there are 5 pairwise-distinct spells, each beats exactly 2
spells (all of them listed spells other than itself), and for each ordered
pair of distinct spells exactly one direction of beats holds, so with distinct
choices exactly one of the win and lose branches of `run_encounter` applies. -/
theorem wizard_rules_tournament :
    RedWizard.choices.length = 5
    ∧ RedWizard.choices.Nodup
    ∧ (RedWizard.choices.all (fun p =>
        ((RedWizard.beats p).length == 2)
        && (RedWizard.beats p).all (fun q =>
            decide (q ∈ RedWizard.choices) && !(p == q))
        && RedWizard.choices.all (fun q =>
            (p == q)
            || (decide (q ∈ RedWizard.beats p) != decide (p ∈ RedWizard.beats q)))))
      = true :=
  ⟨by decide, by decide, by decide⟩

end Claims

end TextGames
